import Mathlib

/-!
Shallow embedding of the task-management logic of `app.py`:
the task query builder (`get_user_tasks`), the statistics aggregator
(`calculate_stats`), the notification deriver (`get_due_notifications`),
and the task-mutation handlers (`add_task`, `edit_task`, `toggle_task`,
`delete_task`, `duplicate_task`).

Modelling conventions:
* UUIDs (user ids, category ids) are modelled as `Nat`; `SERIAL` task ids as `Nat`.
* Naive timestamps are modelled as `Int` seconds since an epoch; `datetime`
  subtraction (`total_seconds()`) is exact integer subtraction, and
  `strftime` with pattern `%H:%M` reads the clock fields out of the epoch value.
* SQL `NULL`-able columns are `Option`s; a `NULL` comparison in a `WHERE`
  clause is three-valued and never selects, which the embedding renders as
  `false` on `none`.
* The rows of the `tasks` and `categories` tables are lists of structures;
  the `uuid`/`SERIAL` primary keys mean row ids are unique, which theorems
  take as an explicit `Nodup` hypothesis where they need it.
* A database connection that cannot be established (`get_db_connection`
  returning `None`) is the `none` case of an `Option DBState` argument.
* `Task` is taken by the Lean core library, so the row structure is named
  `TaskRow`.
-/

/-- A row of the `tasks` table (schema from `init_database`). -/
structure TaskRow where
  id : Nat
  user_id : Nat
  title : String
  description : Option String
  category_id : Option Nat
  priority : String
  due_date : Option Int
  completed : Bool
  completed_at : Option Int
  created_at : Int
  updated_at : Int
  deriving Repr, DecidableEq

/-- A row of the `categories` table (schema from `init_database`). -/
structure CategoryRow where
  id : Nat
  user_id : Nat
  name : String
  color : String
  icon : String
  created_at : Int
  deriving Repr, DecidableEq

/-- The persistent store: the two task-related relations. -/
structure DBState where
  tasks : List TaskRow
  categories : List CategoryRow
  deriving Repr, DecidableEq

/-- One entry of the list built by `get_due_notifications`. -/
structure Notification where
  task : TaskRow
  urgency : String
  message : String
  due_date : Int
  deriving Repr, DecidableEq

/-! ### A stable insertion sort

`ORDER BY` in the SQL queries and Python's `sorted` both produce a list
ordered by a key; the embedding uses a stable insertion sort on a strict
boolean comparison (an element is inserted before the first strictly
greater one). -/

/-- Insert `a` into `l` before the first element `b` with `lt a b`. -/
def insertSorted {α : Type} (lt : α → α → Bool) (a : α) : List α → List α
  | [] => [a]
  | b :: l => if lt a b then a :: b :: l else b :: insertSorted lt a l

/-- Stable insertion sort by the strict comparison `lt`. -/
def sortListBy {α : Type} (lt : α → α → Bool) : List α → List α
  | [] => []
  | a :: l => insertSorted lt a (sortListBy lt l)

theorem insertSorted_perm {α : Type} (lt : α → α → Bool) (a : α) (l : List α) :
    (insertSorted lt a l).Perm (a :: l) := by
  induction l with
  | nil => simp [insertSorted]
  | cons b l ih =>
    simp only [insertSorted]
    by_cases h : lt a b
    · simp [h]
    · simp only [h, if_false, Bool.false_eq_true]
      exact List.Perm.trans (List.Perm.cons b ih) (List.Perm.swap a b l)

theorem sortListBy_perm {α : Type} (lt : α → α → Bool) (l : List α) :
    (sortListBy lt l).Perm l := by
  induction l with
  | nil => simp [sortListBy]
  | cons a l ih =>
    exact ((insertSorted_perm lt a (sortListBy lt l)).trans (List.Perm.cons a ih))

theorem mem_insertSorted {α : Type} (lt : α → α → Bool) (a x : α) (l : List α) :
    x ∈ insertSorted lt a l ↔ x = a ∨ x ∈ l := by
  simpa using (insertSorted_perm lt a l).mem_iff

theorem mem_sortListBy {α : Type} (lt : α → α → Bool) (x : α) (l : List α) :
    x ∈ sortListBy lt l ↔ x ∈ l :=
  (sortListBy_perm lt l).mem_iff

theorem pairwise_insertSorted {α : Type} (lt : α → α → Bool) (R : α → α → Prop)
    (h1 : ∀ a b, lt a b = true → R a b) (h2 : ∀ a b, lt a b = false → R b a)
    (htrans : ∀ a b c, R a b → R b c → R a c)
    (a : α) (l : List α) (hl : l.Pairwise R) :
    (insertSorted lt a l).Pairwise R := by
  induction l with
  | nil => simp [insertSorted]
  | cons b l ih =>
    rcases List.pairwise_cons.mp hl with ⟨hb, hl'⟩
    simp only [insertSorted]
    by_cases h : lt a b
    · simp only [h, if_true]
      refine List.pairwise_cons.mpr ⟨?_, hl⟩
      intro x hx
      rcases List.mem_cons.mp hx with he | hx
      · subst he
        exact h1 _ _ h
      · exact htrans a b x (h1 a b h) (hb x hx)
    · simp only [h, if_false, Bool.false_eq_true]
      refine List.pairwise_cons.mpr ⟨?_, ih hl'⟩
      intro x hx
      rcases (mem_insertSorted lt a x l).mp hx with he | hx
      · subst he
        exact h2 _ _ (by simpa using h)
      · exact hb x hx

theorem pairwise_sortListBy {α : Type} (lt : α → α → Bool) (R : α → α → Prop)
    (h1 : ∀ a b, lt a b = true → R a b) (h2 : ∀ a b, lt a b = false → R b a)
    (htrans : ∀ a b c, R a b → R b c → R a c)
    (l : List α) : (sortListBy lt l).Pairwise R := by
  induction l with
  | nil => simp [sortListBy]
  | cons a l ih =>
    exact pairwise_insertSorted lt R h1 h2 htrans a (sortListBy lt l) ih

/-! ### `find?` helpers (the embedding of `fetchone` on a filtered query) -/

theorem find?_witness {α : Type} (p : α → Bool) (l : List α) (a : α)
    (ha : a ∈ l) (hpa : p a = true) :
    ∃ b, l.find? p = some b ∧ p b = true := by
  induction l with
  | nil => cases ha
  | cons x xs ih =>
    by_cases hx : p x = true
    · exact ⟨x, List.find?_cons_of_pos xs hx, hx⟩
    · rcases List.mem_cons.mp ha with rfl | ha'
      · exact absurd hpa hx
      · rcases ih ha' with ⟨b, hb, hpb⟩
        exact ⟨b, (List.find?_cons_of_neg xs hx).trans hb, hpb⟩

theorem find?_eq_some_of_unique {α : Type} (p : α → Bool) (l : List α) (a : α)
    (ha : a ∈ l) (hpa : p a = true) (huniq : ∀ b ∈ l, p b = true → b = a) :
    l.find? p = some a := by
  induction l with
  | nil => cases ha
  | cons x xs ih =>
    by_cases hx : p x = true
    · have hxa : x = a := huniq x (List.mem_cons_self x xs) hx
      subst hxa
      exact List.find?_cons_of_pos xs hx
    · rcases List.mem_cons.mp ha with rfl | ha'
      · exact absurd hpa hx
      · exact (List.find?_cons_of_neg xs hx).trans
          (ih ha' (fun b hb hpb => huniq b (List.mem_cons_of_mem x hb) hpb))

/-! ### The task query builder (`get_user_tasks`) -/

/-- The SQL condition `due_date < now` on a `NULL`-able column: `NULL` never selects. -/
def dueBefore (now : Int) (due : Option Int) : Bool :=
  match due with
  | some d => decide (d < now)
  | none => false

/-- The status condition appended by the `if`/`elif` chain on `filter_param`
inside `get_user_tasks`. -/
def statusFilter (filter_param : Option String) (now : Int) (rows : List TaskRow) :
    List TaskRow :=
  if filter_param = some "pending" then rows.filter (fun t => t.completed == false)
  else if filter_param = some "completed" then rows.filter (fun t => t.completed == true)
  else if filter_param = some "overdue" then
    rows.filter (fun t => !t.completed && dueBefore now t.due_date)
  else rows

/-- The `AND c.id = %s` clause appended when `category_param` is given, on the
row produced by `LEFT JOIN categories c ON t.category_id = c.id`: the joined
`c.id` is `NULL` (never equal) when the task has no category or no category
row matches its reference. -/
def categoryFilter (cats : List CategoryRow) (category_param : Option Nat)
    (rows : List TaskRow) : List TaskRow :=
  match category_param with
  | some v =>
    rows.filter (fun t =>
      match t.category_id with
      | some cid =>
        match cats.find? (fun c => c.id == cid) with
        | some c => c.id == v
        | none => false
      | none => false)
  | none => rows

/-- `get_user_tasks(user_id, filter_param, category_param)` from `app.py`.

The query selects the rows of `tasks` with `t.user_id = user_id`, conjoins the
status condition chosen on `filter_param`, conjoins the category condition when
`category_param` is given, and orders by `t.created_at DESC`.  When
`get_db_connection()` returns `None` (the `none` case) the function returns `[]`
without touching the store. -/
def get_user_tasks (conn : Option DBState) (user_id : Nat)
    (filter_param : Option String) (category_param : Option Nat) (now : Int) :
    List TaskRow :=
  match conn with
  | none => []
  | some db =>
    sortListBy (fun a b => decide (b.created_at < a.created_at))
      (categoryFilter db.categories category_param
        (statusFilter filter_param now
          (db.tasks.filter (fun t => t.user_id == user_id))))

/-! ### The statistics aggregator (`calculate_stats`) -/

/-- Round half to even (Python's rounding mode), on exact rationals. -/
def roundHalfEven (x : ℚ) : ℤ :=
  let f : ℤ := ⌊x⌋
  if x - f < 1/2 then f
  else if (1 : ℚ)/2 < x - f then f + 1
  else if f % 2 = 0 then f else f + 1

/-- Python's `round(x, 1)`, on exact rationals. -/
def pyRound1 (x : ℚ) : ℚ := (roundHalfEven (10 * x) : ℚ) / 10

/-- The mapping returned by `calculate_stats`. -/
structure Stats where
  total : Nat
  completed : Nat
  pending : Nat
  overdue : Nat
  completion_rate : ℚ
  deriving Repr, DecidableEq

/-- `calculate_stats(user_id)` from `app.py`, as a function of the task list it
aggregates (the source fetches that list with `get_user_tasks(user_id)`) and the
current time. -/
def calculate_stats (tasks : List TaskRow) (now : Int) : Stats :=
  let total := tasks.length
  let completed := (tasks.filter (fun t => t.completed)).length
  let pending := total - completed
  let overdue := (tasks.filter (fun t => !t.completed && dueBefore now t.due_date)).length
  { total := total, completed := completed, pending := pending, overdue := overdue,
    completion_rate :=
      pyRound1 (if 0 < total then (completed : ℚ) / (total : ℚ) * 100 else 0) }

/-! ### The notification deriver (`get_due_notifications`) -/

/-- Two-digit zero-padded decimal rendering. -/
def pad2 (n : Nat) : String := if n < 10 then "0" ++ toString n else toString n

/-- `due_date.strftime` with pattern `%H:%M` on an epoch-seconds naive timestamp. -/
def fmtHM (t : Int) : String :=
  pad2 ((t.fdiv 3600).emod 24).toNat ++ ":" ++ pad2 ((t.fdiv 60).emod 60).toNat

/-- The notification entry built in the loop body of `get_due_notifications`:
`time_diff = due_date - now`; under one hour the urgency is `urgent` with
message `Due in {time_diff // 60} minutes`, otherwise `today` with message
`Due today at {HH:MM}`. -/
def mkNotification (t : TaskRow) (due now : Int) : Notification :=
  if due - now < 3600 then
    { task := t, urgency := "urgent",
      message := "Due in " ++ toString ((due - now).fdiv 60) ++ " minutes",
      due_date := due }
  else
    { task := t, urgency := "today",
      message := "Due today at " ++ fmtHM due, due_date := due }

/-- `get_due_notifications(user_id)` from `app.py`, as a function of the
pending-task list it scans (the source fetches it with
`get_user_tasks(user_id, filter_param=pending)`) and the current time: keep the
tasks with a due date satisfying `0 < time_diff.total_seconds() <= 86400`, build
their notifications, and sort ascending by due date. -/
def get_due_notifications (tasks : List TaskRow) (now : Int) : List Notification :=
  let notifications := tasks.filterMap (fun t =>
    match t.due_date with
    | some due =>
      if 0 < due - now ∧ due - now ≤ 86400 then some (mkNotification t due now)
      else none
    | none => none)
  sortListBy (fun a b => decide (a.due_date < b.due_date)) notifications

/-! ### The task-mutation handlers -/

/-- The POST branch of the `add_task` handler: reject an empty (stripped) title,
otherwise `INSERT INTO tasks (user_id, title, description, category_id,
priority, due_date)`; `completed`, `completed_at`, `created_at` and
`updated_at` take their schema defaults (`FALSE`, `NULL`, now, now); `newId` is
the fresh `SERIAL` key. -/
def add_task (db : List TaskRow) (user_id : Nat) (title : String)
    (description : Option String) (category_id : Option Nat) (priority : String)
    (due_date : Option Int) (newId : Nat) (now : Int) : List TaskRow :=
  if title.trim = "" then db
  else
    db ++ [{ id := newId, user_id := user_id, title := title.trim,
             description := description, category_id := category_id,
             priority := priority, due_date := due_date,
             completed := false, completed_at := none,
             created_at := now, updated_at := now }]

/-- The `edit_task` handler: `SELECT * FROM tasks WHERE id = tid AND user_id =
user_id` (redirect with no change when absent), then on POST with a nonempty
stripped title, `UPDATE tasks SET title, description, category_id, priority,
due_date, updated_at = CURRENT_TIMESTAMP WHERE id = tid AND user_id = user_id`. -/
def edit_task (db : List TaskRow) (user_id tid : Nat) (title : String)
    (description : Option String) (category_id : Option Nat) (priority : String)
    (due_date : Option Int) (now : Int) : List TaskRow :=
  match db.find? (fun t => t.id == tid && t.user_id == user_id) with
  | none => db
  | some _ =>
    if title.trim = "" then db
    else
      db.map (fun r =>
        if r.id == tid && r.user_id == user_id then
          { r with title := title.trim, description := description,
                   category_id := category_id, priority := priority,
                   due_date := due_date, updated_at := now }
        else r)

/-- The `toggle_task` handler: `SELECT completed FROM tasks WHERE id = tid AND
user_id = user_id`; when a row is found, `new_status = not completed`,
`completed_at = now if new_status else NULL`, and `UPDATE tasks SET completed,
completed_at WHERE id = tid` (the `UPDATE` filters by id alone, as in the
source). -/
def toggle_task (db : List TaskRow) (user_id tid : Nat) (now : Int) : List TaskRow :=
  match db.find? (fun t => t.id == tid && t.user_id == user_id) with
  | none => db
  | some t =>
    let new_status := !t.completed
    let completed_at := if new_status then some now else none
    db.map (fun r =>
      if r.id == tid then { r with completed := new_status, completed_at := completed_at }
      else r)

/-- The `delete_task` handler: `DELETE FROM tasks WHERE id = tid AND user_id =
user_id`. -/
def delete_task (db : List TaskRow) (user_id tid : Nat) : List TaskRow :=
  db.filter (fun t => !(t.id == tid && t.user_id == user_id))

/-- The `duplicate_task` handler: `SELECT * FROM tasks WHERE id = tid AND
user_id = user_id`; when a row is found, insert a row with title `Copy of ` ++
the original title, the original description, category, priority and due date,
and schema defaults for `completed`, `completed_at`, `created_at`,
`updated_at`; `newId` is the fresh `SERIAL` key. -/
def duplicate_task (db : List TaskRow) (user_id tid newId : Nat) (now : Int) :
    List TaskRow :=
  match db.find? (fun t => t.id == tid && t.user_id == user_id) with
  | none => db
  | some t =>
    db ++ [{ id := newId, user_id := user_id, title := "Copy of " ++ t.title,
             description := t.description, category_id := t.category_id,
             priority := t.priority, due_date := t.due_date,
             completed := false, completed_at := none,
             created_at := now, updated_at := now }]

/-! ### Spec-side predicates (from the claims' words, for comparison) -/

/-- Spec-side status-filter predicate: `pending` selects `completed = false`,
`completed` selects `completed = true`, `overdue` selects incomplete tasks with
a due date earlier than now, and any other or absent value selects everything. -/
def statusMatchesSpec (filter_param : Option String) (now : Int) (t : TaskRow) : Prop :=
  if filter_param = some "pending" then t.completed = false
  else if filter_param = some "completed" then t.completed = true
  else if filter_param = some "overdue" then
    t.completed = false ∧ ∃ d, t.due_date = some d ∧ d < now
  else True

/-- Spec-side category-filter predicate: a given category filter selects tasks
whose category id equals the given value (tasks with no category excluded). -/
def categoryMatchesSpec (category_param : Option Nat) (t : TaskRow) : Prop :=
  match category_param with
  | some v => t.category_id = some v
  | none => True

/-- The completion invariant: `completed = false` iff `completed_at` is unset. -/
def taskInvariant (t : TaskRow) : Prop := t.completed = false ↔ t.completed_at = none

/-! ### Membership through the query pipeline -/

theorem mem_of_mem_statusFilter (filter_param : Option String) (now : Int)
    (rows : List TaskRow) (t : TaskRow) (h : t ∈ statusFilter filter_param now rows) :
    t ∈ rows := by
  unfold statusFilter at h
  split_ifs at h <;> first | exact (List.mem_filter.mp h).1 | exact h

theorem mem_statusFilter (filter_param : Option String) (now : Int)
    (rows : List TaskRow) (t : TaskRow) :
    t ∈ statusFilter filter_param now rows ↔
      t ∈ rows ∧ statusMatchesSpec filter_param now t := by
  unfold statusFilter statusMatchesSpec
  split_ifs with h1 h2 h3
  · simp [List.mem_filter]
  · simp [List.mem_filter]
  · cases hd : t.due_date with
    | none => simp [List.mem_filter, dueBefore, hd]
    | some d => simp [List.mem_filter, dueBefore, hd]
  · simp

theorem mem_of_mem_categoryFilter (cats : List CategoryRow) (category_param : Option Nat)
    (rows : List TaskRow) (t : TaskRow) (h : t ∈ categoryFilter cats category_param rows) :
    t ∈ rows := by
  unfold categoryFilter at h
  cases category_param with
  | none => exact h
  | some v => exact (List.mem_filter.mp h).1

theorem mem_categoryFilter (cats : List CategoryRow) (category_param : Option Nat)
    (rows : List TaskRow) (t : TaskRow)
    (hreft : ∀ cid, t.category_id = some cid → ∃ c ∈ cats, c.id = cid) :
    t ∈ categoryFilter cats category_param rows ↔
      t ∈ rows ∧ categoryMatchesSpec category_param t := by
  unfold categoryFilter categoryMatchesSpec
  cases category_param with
  | none => simp
  | some v =>
    rw [List.mem_filter]
    refine and_congr_right fun _ => ?_
    cases hcid : t.category_id with
    | none => simp
    | some cid =>
      rcases hreft cid hcid with ⟨c, hc, hcid'⟩
      rcases find?_witness (fun c => c.id == cid) cats c hc (by simp [hcid']) with
        ⟨c', hfind, hpc'⟩
      show (match cats.find? (fun c => c.id == cid) with
            | some c => c.id == v
            | none => false) = true ↔ some cid = some v
      rw [hfind]
      have hc'id : c'.id = cid := by simpa using hpc'
      simp [hc'id]

/-- `pyRound1` fixes `0`. -/
theorem pyRound1_zero : pyRound1 0 = 0 := by
  norm_num [pyRound1, roundHalfEven]

/-- **C1.** For every owner, status filter and category filter — under the
referential integrity the schema enforces (every task's category reference
names an existing category row) — `get_user_tasks` returns exactly the owner's
tasks satisfying the status filter (`pending`: not completed; `completed`:
completed; `overdue`: not completed with a due date earlier than now; any
other or absent value: no restriction) further restricted, when a category
filter is given, to tasks whose category id equals the given value (tasks with
no category excluded), and the result is ordered descending by creation
time. -/
theorem get_user_tasks_correct (db : DBState) (user_id : Nat)
    (filter_param : Option String) (category_param : Option Nat) (now : Int)
    (href : ∀ t ∈ db.tasks, ∀ cid, t.category_id = some cid →
      ∃ c ∈ db.categories, c.id = cid) :
    (∀ t, t ∈ get_user_tasks (some db) user_id filter_param category_param now ↔
        t ∈ db.tasks ∧ t.user_id = user_id
          ∧ statusMatchesSpec filter_param now t
          ∧ categoryMatchesSpec category_param t)
  ∧ (get_user_tasks (some db) user_id filter_param category_param now).Pairwise
      (fun a b => b.created_at ≤ a.created_at) := by
  constructor
  · intro t
    show t ∈ sortListBy (fun a b => decide (b.created_at < a.created_at))
        (categoryFilter db.categories category_param
          (statusFilter filter_param now
            (db.tasks.filter (fun t => t.user_id == user_id)))) ↔ _
    rw [mem_sortListBy]
    constructor
    · intro h
      have htasks : t ∈ db.tasks := by
        have h1 := mem_of_mem_categoryFilter _ _ _ _ h
        have h2 := mem_of_mem_statusFilter _ _ _ _ h1
        exact (List.mem_filter.mp h2).1
      rcases (mem_categoryFilter _ _ _ _ (href t htasks)).mp h with ⟨h1, hcat⟩
      rcases (mem_statusFilter _ _ _ _).mp h1 with ⟨h2, hstat⟩
      have huid : t.user_id = user_id := by simpa using (List.mem_filter.mp h2).2
      exact ⟨htasks, huid, hstat, hcat⟩
    · rintro ⟨htasks, huid, hstat, hcat⟩
      exact (mem_categoryFilter _ _ _ _ (href t htasks)).mpr
        ⟨(mem_statusFilter _ _ _ _).mpr
          ⟨List.mem_filter.mpr ⟨htasks, by simp [huid]⟩, hstat⟩, hcat⟩
  · refine pairwise_sortListBy
      (fun (a b : TaskRow) => decide (b.created_at < a.created_at))
      (fun a b => b.created_at ≤ a.created_at) ?_ ?_ ?_ _
    · intro a b h
      exact le_of_lt (of_decide_eq_true h)
    · intro a b h
      exact le_of_not_lt (of_decide_eq_false h)
    · intro a b c hab hbc
      exact le_trans hbc hab

/-- A concrete store for the C1 witness: one category, two tasks of owner 7. -/
def dbC1 : DBState :=
  { tasks :=
      [{ id := 1, user_id := 7, title := "write report", description := none,
         category_id := some 3, priority := "high", due_date := some 500,
         completed := false, completed_at := none, created_at := 10, updated_at := 10 },
       { id := 2, user_id := 7, title := "old chore", description := none,
         category_id := some 3, priority := "low", due_date := none,
         completed := true, completed_at := some 20, created_at := 5, updated_at := 20 }],
    categories :=
      [{ id := 3, user_id := 7, name := "Work", color := "#dc2626", icon := "W",
         created_at := 1 }] }

/-- Witness for C1 at a concrete store, owner, filter and category. -/
theorem get_user_tasks_correct_witness :
    (∀ t, t ∈ get_user_tasks (some dbC1) 7 (some "pending") (some 3) 1000 ↔
        t ∈ dbC1.tasks ∧ t.user_id = 7
          ∧ statusMatchesSpec (some "pending") 1000 t
          ∧ categoryMatchesSpec (some 3) t)
  ∧ (get_user_tasks (some dbC1) 7 (some "pending") (some 3) 1000).Pairwise
      (fun a b => b.created_at ≤ a.created_at) :=
  get_user_tasks_correct dbC1 7 (some "pending") (some 3) 1000 (by decide)

/-- **C2.** For every task list, `calculate_stats` returns `total` = the number
of tasks, `completed` = the number of completed tasks, `pending` = `total -
completed` (so `pending + completed = total`), `overdue` = the number of
incomplete tasks with a due date earlier than now, and `completion_rate` =
`round(completed / total * 100, 1)` when `total > 0` and `0` when `total = 0`;
an empty task list yields all counts zero and rate zero. -/
theorem calculate_stats_correct (tasks : List TaskRow) (now : Int) :
    (calculate_stats tasks now).total = tasks.length
  ∧ (calculate_stats tasks now).completed = tasks.countP (fun t => t.completed)
  ∧ (calculate_stats tasks now).pending
      = tasks.length - tasks.countP (fun t => t.completed)
  ∧ (calculate_stats tasks now).pending + (calculate_stats tasks now).completed
      = (calculate_stats tasks now).total
  ∧ (calculate_stats tasks now).overdue
      = tasks.countP (fun t => !t.completed && dueBefore now t.due_date)
  ∧ (tasks.length = 0 → (calculate_stats tasks now).completion_rate = 0)
  ∧ (0 < tasks.length →
      (calculate_stats tasks now).completion_rate
        = pyRound1 ((tasks.countP (fun t => t.completed) : ℚ)
            / (tasks.length : ℚ) * 100))
  ∧ calculate_stats [] now = Stats.mk 0 0 0 0 0 := by
  refine ⟨rfl, ?_, ?_, ?_, ?_, ?_, ?_, ?_⟩
  · simp [calculate_stats, List.countP_eq_length_filter]
  · simp [calculate_stats, List.countP_eq_length_filter]
  · show tasks.length - (tasks.filter (fun t => t.completed)).length
        + (tasks.filter (fun t => t.completed)).length = tasks.length
    exact Nat.sub_add_cancel (List.length_filter_le _ _)
  · simp [calculate_stats, List.countP_eq_length_filter]
  · intro h
    simp [calculate_stats, h, pyRound1_zero]
  · intro h
    simp [calculate_stats, h, List.countP_eq_length_filter]
  · simp [calculate_stats, pyRound1_zero]

/-- **C9.** When the store is unreachable (`get_db_connection()` returns
`None`), `get_user_tasks` returns the empty list — the same value it returns
for an owner with zero tasks on a reachable store, so an outage is
indistinguishable from having no tasks.  (The source catches the connection
error inside `get_db_connection` and returns early, so nothing is raised to
the caller.) -/
theorem get_user_tasks_unreachable (user_id : Nat) (filter_param : Option String)
    (category_param : Option Nat) (now : Int) :
    get_user_tasks none user_id filter_param category_param now = []
  ∧ get_user_tasks none user_id filter_param category_param now
      = get_user_tasks (some { tasks := [], categories := [] }) user_id
          filter_param category_param now := by
  refine ⟨rfl, ?_⟩
  show ([] : List TaskRow) = _
  unfold get_user_tasks statusFilter categoryFilter
  cases category_param <;> simp [sortListBy]

/-! ### Notification correctness -/

/-- Spec-side "due soon" predicate: the task has a due date whose time-to-due
is strictly positive and at most 86400 seconds. -/
def dueSoonSpec (now : Int) (t : TaskRow) : Bool :=
  match t.due_date with
  | some due => decide (0 < due - now) && decide (due - now ≤ 86400)
  | none => false

theorem mkNotification_task (t : TaskRow) (due now : Int) :
    (mkNotification t due now).task = t := by
  unfold mkNotification
  split <;> rfl

theorem mkNotification_due_date (t : TaskRow) (due now : Int) :
    (mkNotification t due now).due_date = due := by
  unfold mkNotification
  split <;> rfl

/-- The body of the loop in `get_due_notifications`, before sorting. -/
def notifRows (tasks : List TaskRow) (now : Int) : List Notification :=
  tasks.filterMap (fun t =>
    match t.due_date with
    | some due =>
      if 0 < due - now ∧ due - now ≤ 86400 then some (mkNotification t due now)
      else none
    | none => none)

theorem get_due_notifications_eq_sort (tasks : List TaskRow) (now : Int) :
    get_due_notifications tasks now
      = sortListBy (fun a b => decide (a.due_date < b.due_date))
          (notifRows tasks now) := rfl

theorem notifRows_map_task (tasks : List TaskRow) (now : Int) :
    (notifRows tasks now).map (fun n => n.task)
      = tasks.filter (fun t => dueSoonSpec now t) := by
  induction tasks with
  | nil => rfl
  | cons t ts ih =>
    cases hd : t.due_date with
    | none =>
      have h1 : notifRows (t :: ts) now = notifRows ts now := by
        simp [notifRows, List.filterMap_cons, hd]
      have h2 : (t :: ts).filter (fun t => dueSoonSpec now t)
          = ts.filter (fun t => dueSoonSpec now t) := by
        simp [List.filter_cons, dueSoonSpec, hd]
      rw [h1, h2, ih]
    | some due =>
      by_cases hcond : 0 < due - now ∧ due - now ≤ 86400
      · have h1 : notifRows (t :: ts) now
            = mkNotification t due now :: notifRows ts now := by
          simp only [notifRows, List.filterMap_cons, hd]
          rw [if_pos hcond]
        have htrue : dueSoonSpec now t = true := by
          simp only [dueSoonSpec, hd, Bool.and_eq_true, decide_eq_true_eq]
          exact ⟨hcond.1, hcond.2⟩
        have h2 : (t :: ts).filter (fun t => dueSoonSpec now t)
            = t :: ts.filter (fun t => dueSoonSpec now t) := by
          simp [List.filter_cons, htrue]
        rw [h1, h2, List.map_cons, mkNotification_task, ih]
      · have h1 : notifRows (t :: ts) now = notifRows ts now := by
          simp only [notifRows, List.filterMap_cons, hd]
          rw [if_neg hcond]
        have hfalse : dueSoonSpec now t = false := by
          rw [Bool.eq_false_iff]
          intro hcontra
          apply hcond
          simpa only [dueSoonSpec, hd, Bool.and_eq_true, decide_eq_true_eq]
            using hcontra
        have h2 : (t :: ts).filter (fun t => dueSoonSpec now t)
            = ts.filter (fun t => dueSoonSpec now t) := by
          simp [List.filter_cons, hfalse]
        rw [h1, h2, ih]

/-- **C3.** For every pending-task list and every current time,
`get_due_notifications` produces one notification per task that has a due
date with time-to-due strictly greater than 0 and at most 86400 seconds
(tasks with no due date, past-due tasks, and tasks due more than 24 hours
ahead are excluded), and the returned list is ordered ascending by due
time. -/
theorem get_due_notifications_correct (tasks : List TaskRow) (now : Int) :
    ((get_due_notifications tasks now).map (fun n => n.task)).Perm
      (tasks.filter (fun t => dueSoonSpec now t))
  ∧ (get_due_notifications tasks now).Pairwise
      (fun a b => a.due_date ≤ b.due_date) := by
  constructor
  · rw [get_due_notifications_eq_sort]
    have hperm :=
      (sortListBy_perm (fun a b => decide (a.due_date < b.due_date))
        (notifRows tasks now)).map (fun n => n.task)
    rw [notifRows_map_task] at hperm
    exact hperm
  · rw [get_due_notifications_eq_sort]
    refine pairwise_sortListBy
      (fun (a b : Notification) => decide (a.due_date < b.due_date))
      (fun a b => a.due_date ≤ b.due_date) ?_ ?_ ?_ _
    · intro a b h
      exact le_of_lt (of_decide_eq_true h)
    · intro a b h
      exact le_of_not_lt (of_decide_eq_false h)
    · intro a b c hab hbc
      exact le_trans hab hbc

theorem mkNotification_eq_urgent (t : TaskRow) (due now : Int)
    (h : due - now < 3600) :
    mkNotification t due now
      = Notification.mk t "urgent"
          ("Due in " ++ toString ((due - now).fdiv 60) ++ " minutes") due := by
  unfold mkNotification
  rw [if_pos h]

theorem mkNotification_eq_today (t : TaskRow) (due now : Int)
    (h : ¬ due - now < 3600) :
    mkNotification t due now
      = Notification.mk t "today" ("Due today at " ++ fmtHM due) due := by
  unfold mkNotification
  rw [if_neg h]

/-- **C4.** Every notification produced by the deriver is classified by its
time-to-due: strictly under one hour (3600 s) it has urgency `urgent` and
message `Due in N minutes` with `N` the floor of the remaining seconds over
60; from one hour up (within the 24-hour window) it has urgency `today` and
message `Due today at HH:MM`, the due timestamp's clock time in 24-hour
format.  The witness instantiates the 30-minute scenario. -/
theorem notification_classification (tasks : List TaskRow) (now : Int)
    (n : Notification) (hn : n ∈ get_due_notifications tasks now) :
    (n.due_date - now < 3600 →
       n.urgency = "urgent"
     ∧ n.message = "Due in " ++ toString ((n.due_date - now).fdiv 60) ++ " minutes")
  ∧ (3600 ≤ n.due_date - now →
       n.urgency = "today" ∧ n.message = "Due today at " ++ fmtHM n.due_date) := by
  rw [get_due_notifications_eq_sort, mem_sortListBy] at hn
  rcases List.mem_filterMap.mp hn with ⟨t, ht, hft⟩
  cases hd : t.due_date with
  | none =>
    rw [hd] at hft
    exact Option.noConfusion hft
  | some due =>
    rw [hd] at hft
    have hred : (match some due with
        | some due =>
          if 0 < due - now ∧ due - now ≤ 86400 then some (mkNotification t due now)
          else none
        | none => none)
        = (if 0 < due - now ∧ due - now ≤ 86400 then some (mkNotification t due now)
           else none) := rfl
    rw [hred] at hft
    by_cases hcond : 0 < due - now ∧ due - now ≤ 86400
    · rw [if_pos hcond] at hft
      obtain rfl := Option.some.inj hft
      rcases lt_or_le (due - now) 3600 with h36 | h36
      · rw [mkNotification_eq_urgent t due now h36]
        constructor
        · intro _
          exact ⟨rfl, rfl⟩
        · intro hge
          exact absurd (show (3600 : Int) ≤ due - now from hge) (not_le.mpr h36)
      · rw [mkNotification_eq_today t due now (not_lt.mpr h36)]
        constructor
        · intro hlt
          exact absurd h36 (not_le.mpr (show due - now < 3600 from hlt))
        · intro _
          exact ⟨rfl, rfl⟩
    · rw [if_neg hcond] at hft
      exact Option.noConfusion hft

/-- A concrete pending task due in exactly 30 minutes (now = 0). -/
def taskDueIn30 : TaskRow :=
  TaskRow.mk 11 7 "standup" none none "medium" (some 1800) false none 0 0

/-- Witness for C4: a task due in exactly 30 minutes is notified as `urgent`
with message `Due in 30 minutes`. -/
theorem notification_classification_witness :
    (Notification.mk taskDueIn30 "urgent" "Due in 30 minutes" 1800).urgency
        = "urgent"
  ∧ (Notification.mk taskDueIn30 "urgent" "Due in 30 minutes" 1800).message
        = "Due in " ++ toString (((1800 : Int) - 0).fdiv 60) ++ " minutes" :=
  (notification_classification [taskDueIn30] 0
    (Notification.mk taskDueIn30 "urgent" "Due in 30 minutes" 1800)
    (by decide)).1 (by decide)

/-- A concrete pending task due in exactly 86400 seconds (now = 0). -/
def taskDueIn24h : TaskRow :=
  TaskRow.mk 12 7 "review" none none "medium" (some 86400) false none 0 0

/-- Counterexample to C5 as stated: with now = 0, a pending task due at
exactly 86400 seconds after now IS notified — the source keeps
`0 < time_diff <= 86400`, an inclusive upper bound — so the claimed exclusion
at exactly 86400 seconds is false. -/
theorem boundary_86400_not_excluded :
    (get_due_notifications [taskDueIn24h] 0).map (fun n => n.task)
      = [taskDueIn24h] := by
  decide

/-- **C5 (amended).** A pending task whose due date lies exactly 86400 seconds
after the current time is included in the notification list produced by the
deriver. -/
theorem boundary_86400_included (tasks : List TaskRow) (now : Int) (t : TaskRow)
    (ht : t ∈ tasks) (hd : t.due_date = some (now + 86400)) :
    ∃ n ∈ get_due_notifications tasks now, n.task = t := by
  refine ⟨mkNotification t (now + 86400) now, ?_, mkNotification_task _ _ _⟩
  rw [get_due_notifications_eq_sort, mem_sortListBy]
  apply List.mem_filterMap.mpr
  refine ⟨t, ht, ?_⟩
  rw [hd]
  show (if 0 < (now + 86400) - now ∧ (now + 86400) - now ≤ 86400 then
      some (mkNotification t (now + 86400) now) else none)
      = some (mkNotification t (now + 86400) now)
  rw [if_pos ⟨by omega, by omega⟩]

/-- Witness for the amended C5 at a concrete task and time. -/
theorem boundary_86400_included_witness :
    ∃ n ∈ get_due_notifications [taskDueIn24h] 0, n.task = taskDueIn24h :=
  boundary_86400_included [taskDueIn24h] 0 taskDueIn24h (by decide) (by decide)

/-! ### Mutation handlers: invariants and ownership -/

/-- Under unique task ids, the `SELECT ... WHERE id = tid AND user_id = uid`
lookup returns exactly the owned row. -/
theorem find?_owner_id (db : List TaskRow) (user_id tid : Nat) (t : TaskRow)
    (huniq : (db.map (fun r => r.id)).Nodup)
    (ht : t ∈ db) (hid : t.id = tid) (hu : t.user_id = user_id) :
    db.find? (fun r => r.id == tid && r.user_id == user_id) = some t := by
  apply find?_eq_some_of_unique _ db t ht (by simp [hid, hu])
  intro b hb hpb
  simp only [Bool.and_eq_true, beq_iff_eq] at hpb
  exact List.inj_on_of_nodup_map huniq hb ht (by rw [hpb.1, hid])

/-- **C6.** Task creation, edit, toggle and duplication preserve the invariant
`completed = false ↔ completed_at unset`; a created or duplicated row starts
with `completed = false` and `completed_at` unset; and toggling sets
`completed_at` to now when moving to complete and clears it when moving to
incomplete. -/
theorem task_ops_preserve_invariant (db : List TaskRow) (user_id tid newId : Nat)
    (title : String) (description : Option String) (category_id : Option Nat)
    (priority : String) (due_date : Option Int) (now : Int)
    (hdb : ∀ t ∈ db, taskInvariant t) :
    (∀ t ∈ add_task db user_id title description category_id priority due_date
        newId now, taskInvariant t)
  ∧ (∀ t ∈ edit_task db user_id tid title description category_id priority
        due_date now, taskInvariant t)
  ∧ (∀ t ∈ toggle_task db user_id tid now, taskInvariant t)
  ∧ (∀ t ∈ duplicate_task db user_id tid newId now, taskInvariant t)
  ∧ (∀ t ∈ add_task db user_id title description category_id priority due_date
        newId now, t ∉ db → t.completed = false ∧ t.completed_at = none)
  ∧ (∀ t ∈ duplicate_task db user_id tid newId now,
        t ∉ db → t.completed = false ∧ t.completed_at = none)
  ∧ (∀ t0, db.find? (fun r => r.id == tid && r.user_id == user_id) = some t0 →
        ∀ t ∈ toggle_task db user_id tid now, t.id = tid →
          t.completed = !t0.completed
        ∧ t.completed_at = (if t0.completed = true then none else some now)) := by
  have hadd : ∀ t ∈ add_task db user_id title description category_id priority
      due_date newId now, t ∈ db ∨ (t.completed = false ∧ t.completed_at = none) := by
    intro t htm
    unfold add_task at htm
    by_cases hti : title.trim = ""
    · rw [if_pos hti] at htm
      exact Or.inl htm
    · rw [if_neg hti] at htm
      rcases List.mem_append.mp htm with hcase | hcase
      · exact Or.inl hcase
      · obtain rfl := List.mem_singleton.mp hcase
        exact Or.inr ⟨rfl, rfl⟩
  have hdup : ∀ t ∈ duplicate_task db user_id tid newId now,
      t ∈ db ∨ (t.completed = false ∧ t.completed_at = none) := by
    intro t htm
    unfold duplicate_task at htm
    cases hfind : db.find? (fun r => r.id == tid && r.user_id == user_id) with
    | none =>
      rw [hfind] at htm
      exact Or.inl htm
    | some t0 =>
      rw [hfind] at htm
      rcases List.mem_append.mp htm with hcase | hcase
      · exact Or.inl hcase
      · obtain rfl := List.mem_singleton.mp hcase
        exact Or.inr ⟨rfl, rfl⟩
  have htogc : ∀ t0, db.find? (fun r => r.id == tid && r.user_id == user_id)
        = some t0 →
      ∀ t ∈ toggle_task db user_id tid now, t.id = tid →
        t.completed = !t0.completed
      ∧ t.completed_at = (if t0.completed = true then none else some now) := by
    intro t0 hfind t htm hid
    unfold toggle_task at htm
    rw [hfind] at htm
    rcases List.mem_map.mp htm with ⟨r, hr, hrt⟩
    by_cases hrid : (r.id == tid) = true
    · rw [if_pos hrid] at hrt
      subst hrt
      refine ⟨rfl, ?_⟩
      cases hc : t0.completed <;> simp [hc]
    · rw [if_neg hrid] at hrt
      subst hrt
      exact absurd (by simp [hid]) hrid
  refine ⟨?_, ?_, ?_, ?_, ?_, ?_, htogc⟩
  · intro t htm
    rcases hadd t htm with hcase | hcase
    · exact hdb t hcase
    · unfold taskInvariant
      rw [hcase.1, hcase.2]
      simp
  · intro t htm
    unfold edit_task at htm
    cases hfind : db.find? (fun r => r.id == tid && r.user_id == user_id) with
    | none =>
      rw [hfind] at htm
      exact hdb t htm
    | some t0 =>
      rw [hfind] at htm
      by_cases hti : title.trim = ""
      · rw [if_pos hti] at htm
        exact hdb t htm
      · rw [if_neg hti] at htm
        rcases List.mem_map.mp htm with ⟨r, hr, hrt⟩
        by_cases hrid : (r.id == tid && r.user_id == user_id) = true
        · rw [if_pos hrid] at hrt
          subst hrt
          have hr' := hdb r hr
          unfold taskInvariant at hr' ⊢
          simpa using hr'
        · rw [if_neg hrid] at hrt
          subst hrt
          exact hdb r hr
  · intro t htm
    unfold toggle_task at htm
    cases hfind : db.find? (fun r => r.id == tid && r.user_id == user_id) with
    | none =>
      rw [hfind] at htm
      exact hdb t htm
    | some t0 =>
      rw [hfind] at htm
      rcases List.mem_map.mp htm with ⟨r, hr, hrt⟩
      by_cases hrid : (r.id == tid) = true
      · rw [if_pos hrid] at hrt
        subst hrt
        unfold taskInvariant
        cases hc : t0.completed <;> simp [hc]
      · rw [if_neg hrid] at hrt
        subst hrt
        exact hdb r hr
  · intro t htm
    rcases hdup t htm with hcase | hcase
    · exact hdb t hcase
    · unfold taskInvariant
      rw [hcase.1, hcase.2]
      simp
  · intro t htm hnot
    rcases hadd t htm with hcase | hcase
    · exact absurd hcase hnot
    · exact hcase
  · intro t htm hnot
    rcases hdup t htm with hcase | hcase
    · exact absurd hcase hnot
    · exact hcase

/-- A concrete pending task for the C6 witness. -/
def taskC6a : TaskRow := TaskRow.mk 31 9 "email" none none "medium" none false none 0 0

/-- A concrete completed task for the C6 witness. -/
def taskC6b : TaskRow :=
  TaskRow.mk 32 9 "groceries" none none "medium" none true (some 50) 0 50

/-- Witness for C6 at a concrete two-task store. -/
theorem task_ops_preserve_invariant_witness :
    (∀ t ∈ add_task [taskC6a, taskC6b] 9 "new" none none "low" none 33 77,
       taskInvariant t)
  ∧ (∀ t ∈ edit_task [taskC6a, taskC6b] 9 31 "new" none none "low" none 77,
       taskInvariant t)
  ∧ (∀ t ∈ toggle_task [taskC6a, taskC6b] 9 31 77, taskInvariant t)
  ∧ (∀ t ∈ duplicate_task [taskC6a, taskC6b] 9 31 33 77, taskInvariant t)
  ∧ (∀ t ∈ add_task [taskC6a, taskC6b] 9 "new" none none "low" none 33 77,
       t ∉ [taskC6a, taskC6b] → t.completed = false ∧ t.completed_at = none)
  ∧ (∀ t ∈ duplicate_task [taskC6a, taskC6b] 9 31 33 77,
       t ∉ [taskC6a, taskC6b] → t.completed = false ∧ t.completed_at = none)
  ∧ (∀ t0, [taskC6a, taskC6b].find? (fun r => r.id == 31 && r.user_id == 9)
        = some t0 →
       ∀ t ∈ toggle_task [taskC6a, taskC6b] 9 31 77, t.id = 31 →
         t.completed = !t0.completed
       ∧ t.completed_at = (if t0.completed = true then none else some 77)) :=
  task_ops_preserve_invariant [taskC6a, taskC6b] 9 31 33 "new" none none "low"
    none 77 (by intro t htm; fin_cases htm <;> simp [taskInvariant, taskC6a, taskC6b])

/-- `toggle_task` once the owner lookup has resolved: an `UPDATE` of the
completion fields on every row with the target id. -/
theorem toggle_task_of_find? (db : List TaskRow) (user_id tid : Nat) (now : Int)
    (t0 : TaskRow)
    (hfind : db.find? (fun r => r.id == tid && r.user_id == user_id) = some t0) :
    toggle_task db user_id tid now
      = db.map (fun r => if r.id == tid then
          { r with completed := !t0.completed,
                   completed_at := if !t0.completed then some now else none }
        else r) := by
  unfold toggle_task
  rw [hfind]


/-- The row state after one toggle of `t` at time `now`: completion flipped,
`completed_at` stamped with now when moving to complete and cleared when
moving to incomplete. -/
def toggledOnce (t : TaskRow) (now : Int) : TaskRow :=
  { t with completed := !t.completed,
           completed_at := if t.completed = true then none else some now }

/-- The row state after two toggles of `t`, the second at time `now`: the
original completion flag, with `completed_at` re-stamped or re-cleared. -/
def toggledTwice (t : TaskRow) (now : Int) : TaskRow :=
  { t with completed_at := if t.completed = true then some now else none }

/-- **C7.** For a task owned by the session's user (ids unique), one toggle
moves it Pending to Completed, stamping `completed_at` with now, or Completed
to Pending, clearing it; a second toggle returns it to the original completed
state, re-stamping or re-clearing `completed_at`; rows with a different id are
never touched (no transition happens other than by toggling the task). -/
theorem toggle_twice_restores (db : List TaskRow) (user_id tid : Nat)
    (now1 now2 : Int) (t : TaskRow)
    (huniq : (db.map (fun r => r.id)).Nodup)
    (ht : t ∈ db) (hid : t.id = tid) (hu : t.user_id = user_id) :
    (toggledOnce t now1 ∈ toggle_task db user_id tid now1)
  ∧ (∀ r ∈ db, r.id ≠ tid → r ∈ toggle_task db user_id tid now1)
  ∧ (toggledTwice t now2
      ∈ toggle_task (toggle_task db user_id tid now1) user_id tid now2)
  ∧ (∀ r ∈ db, r.id ≠ tid →
      r ∈ toggle_task (toggle_task db user_id tid now1) user_id tid now2) := by
  have hfind1 : db.find? (fun r => r.id == tid && r.user_id == user_id) = some t :=
    find?_owner_id db user_id tid t huniq ht hid hu
  have htog1 := toggle_task_of_find? db user_id tid now1 t hfind1
  have ht1mem : toggledOnce t now1 ∈ toggle_task db user_id tid now1 := by
    rw [htog1]
    refine List.mem_map.mpr ⟨t, ht, ?_⟩
    rw [if_pos (by simp [hid])]
    unfold toggledOnce
    cases hc : t.completed <;> simp [hc]
  have hskip1 : ∀ r ∈ db, r.id ≠ tid → r ∈ toggle_task db user_id tid now1 := by
    intro r hr hrid
    rw [htog1]
    refine List.mem_map.mpr ⟨r, hr, ?_⟩
    rw [if_neg (by simp [hrid])]
  have hids : (toggle_task db user_id tid now1).map (fun r => r.id)
      = db.map (fun r => r.id) := by
    rw [htog1, List.map_map]
    apply List.map_congr_left
    intro r hr
    by_cases hb : r.id = tid
    · simp [hb]
    · simp [hb]
  have huniq1 : ((toggle_task db user_id tid now1).map (fun r => r.id)).Nodup := by
    rw [hids]
    exact huniq
  have hfind2 : (toggle_task db user_id tid now1).find?
      (fun r => r.id == tid && r.user_id == user_id) = some (toggledOnce t now1) :=
    find?_owner_id _ user_id tid _ huniq1 ht1mem (by simp [toggledOnce, hid])
      (by simp [toggledOnce, hu])
  have htog2 := toggle_task_of_find? _ user_id tid now2 _ hfind2
  have hmem2 : toggledTwice t now2
      ∈ toggle_task (toggle_task db user_id tid now1) user_id tid now2 := by
    rw [htog2]
    refine List.mem_map.mpr ⟨toggledOnce t now1, ht1mem, ?_⟩
    rw [if_pos (by simp [toggledOnce, hid])]
    unfold toggledOnce toggledTwice
    cases hc : t.completed <;> simp [hc]
  have hskip2 : ∀ r ∈ db, r.id ≠ tid →
      r ∈ toggle_task (toggle_task db user_id tid now1) user_id tid now2 := by
    intro r hr hrid
    rw [htog2]
    refine List.mem_map.mpr ⟨r, hskip1 r hr hrid, ?_⟩
    rw [if_neg (by simp [hrid])]
  exact ⟨ht1mem, hskip1, hmem2, hskip2⟩

/-- A concrete pending task for the C7 witness. -/
def taskC7 : TaskRow := TaskRow.mk 21 9 "pay rent" none none "high" none false none 3 3

/-- Witness for C7 at a concrete one-task store. -/
theorem toggle_twice_restores_witness :
    (toggledOnce taskC7 100 ∈ toggle_task [taskC7] 9 21 100)
  ∧ (∀ r ∈ [taskC7], r.id ≠ 21 → r ∈ toggle_task [taskC7] 9 21 100)
  ∧ (toggledTwice taskC7 200
      ∈ toggle_task (toggle_task [taskC7] 9 21 100) 9 21 200)
  ∧ (∀ r ∈ [taskC7], r.id ≠ 21 →
      r ∈ toggle_task (toggle_task [taskC7] 9 21 100) 9 21 200) :=
  toggle_twice_restores [taskC7] 9 21 100 200 taskC7 (by decide) (by decide)
    (by decide) (by decide)

/-- **C8.** When the targeted task id does not belong to the session's user
(in particular when it exists but is owned by someone else), every task
mutation — toggle, edit, delete, duplicate — leaves the task table unchanged,
exactly as it does for a nonexistent id: the owner predicate in each query
matches no row. -/
theorem mutations_owner_mismatch_not_found (db : List TaskRow)
    (user_id tid newId : Nat) (title : String) (description : Option String)
    (category_id : Option Nat) (priority : String) (due_date : Option Int)
    (now : Int)
    (hmis : ∀ r ∈ db, r.id = tid → r.user_id ≠ user_id) :
    toggle_task db user_id tid now = db
  ∧ edit_task db user_id tid title description category_id priority due_date now
      = db
  ∧ delete_task db user_id tid = db
  ∧ duplicate_task db user_id tid newId now = db := by
  have hfind : db.find? (fun r => r.id == tid && r.user_id == user_id) = none := by
    rw [List.find?_eq_none]
    intro x hx
    simp only [Bool.and_eq_true, beq_iff_eq, not_and]
    exact hmis x hx
  refine ⟨?_, ?_, ?_, ?_⟩
  · unfold toggle_task
    rw [hfind]
  · unfold edit_task
    rw [hfind]
  · unfold delete_task
    rw [List.filter_eq_self]
    intro a ha
    by_cases hida : a.id = tid
    · simp [hida, hmis a ha hida]
    · simp [hida]
  · unfold duplicate_task
    rw [hfind]

/-- A concrete task owned by user 2 for the C8 witness. -/
def taskC8 : TaskRow := TaskRow.mk 5 2 "secret" none none "medium" none false none 0 0

/-- Witness for C8: user 1 targets task id 5, which exists but is owned by
user 2; every mutation is a no-op. -/
theorem mutations_owner_mismatch_not_found_witness :
    toggle_task [taskC8] 1 5 77 = [taskC8]
  ∧ edit_task [taskC8] 1 5 "hacked" none none "low" none 77 = [taskC8]
  ∧ delete_task [taskC8] 1 5 = [taskC8]
  ∧ duplicate_task [taskC8] 1 5 6 77 = [taskC8] :=
  mutations_owner_mismatch_not_found [taskC8] 1 5 6 "hacked" none none "low"
    none 77 (by decide)

/-- **C10.** Duplicating an owned task (ids unique, `newId` the fresh serial
key) appends exactly one new row: same owner, title prefixed with `Copy of `,
the original description, category reference, priority and due date, with
`completed = false` and `completed_at` unset regardless of the original's
completion state; every original row, the source task included, is left in
place unchanged. -/
theorem duplicate_task_correct (db : List TaskRow) (user_id tid newId : Nat)
    (now : Int) (t : TaskRow)
    (huniq : (db.map (fun r => r.id)).Nodup)
    (ht : t ∈ db) (hid : t.id = tid) (hu : t.user_id = user_id)
    (hfresh : ∀ r ∈ db, r.id ≠ newId) :
    duplicate_task db user_id tid newId now
      = db ++ [TaskRow.mk newId user_id ("Copy of " ++ t.title) t.description
          t.category_id t.priority t.due_date false none now now]
  ∧ (∀ r ∈ db, r ∈ duplicate_task db user_id tid newId now ∧ r.id ≠ newId) := by
  have hfind : db.find? (fun r => r.id == tid && r.user_id == user_id) = some t :=
    find?_owner_id db user_id tid t huniq ht hid hu
  have heq : duplicate_task db user_id tid newId now
      = db ++ [TaskRow.mk newId user_id ("Copy of " ++ t.title) t.description
          t.category_id t.priority t.due_date false none now now] := by
    unfold duplicate_task
    rw [hfind]
  refine ⟨heq, ?_⟩
  intro r hr
  exact ⟨heq ▸ List.mem_append_left _ hr, hfresh r hr⟩

/-- A concrete completed task for the C10 witness. -/
def taskC10 : TaskRow :=
  TaskRow.mk 41 9 "ship release" (some "v2") (some 3) "high" (some 900) true
    (some 800) 40 800

/-- Witness for C10: duplicating a completed task yields a fresh pending copy. -/
theorem duplicate_task_correct_witness :
    duplicate_task [taskC10] 9 41 42 1000
      = [taskC10] ++ [TaskRow.mk 42 9 ("Copy of " ++ taskC10.title)
          taskC10.description taskC10.category_id taskC10.priority
          taskC10.due_date false none 1000 1000]
  ∧ (∀ r ∈ [taskC10], r ∈ duplicate_task [taskC10] 9 41 42 1000 ∧ r.id ≠ 42) :=
  duplicate_task_correct [taskC10] 9 41 42 1000 taskC10 (by decide) (by decide)
    (by decide) (by decide) (by decide)
